import Mathlib

/-!
Verification of the call-center analytics pipeline: a shallow embedding of
the repository's agents (call intake, content safety, quality scoring,
data storage) and of the LangGraph workflow routers, with theorems checking
the natural-language specification against the code.

Conventions of the embedding:
* Python floats become `ℚ` (the claims are about the algebraic structure of
  score arithmetic, not IEEE rounding).
* External capabilities (the LLM calls, the moderation service) are inputs:
  a fallible call is an `Except String α` argument, a structured LLM reply is
  a record argument.
* File-system state (the fingerprint registry, the CSV tables, the JSON
  database) is explicit: a registry is a `List String`, the agent-performance
  table a `List AgentPerfRow`, and the storage agent's writes are reified as
  an ordered `List StoreEvent` trace.
* Python truthiness of optional strings (`None` and `""` are falsy) is
  `pyTruthyStr`.
-/

set_option maxRecDepth 100000

namespace CallCenter

/-- Python truthiness of an optional string: `None` and `""` are falsy. -/
def pyTruthyStr : Option String → Bool
  | none => false
  | some s => !(s == "")

/-- Python `str.strip()`: drop leading and trailing whitespace.  (Structural
replacement for `String.trim`, which does not reduce in the kernel.) -/
def pyStrip (s : String) : String :=
  ⟨((s.data.dropWhile Char.isWhitespace).reverse.dropWhile Char.isWhitespace).reverse⟩

/-- Python `str.lower()` (ASCII case folding, like `String.toLower`). -/
def pyLower (s : String) : String :=
  ⟨s.data.map Char.toLower⟩

/-- Helper for `pySplit`: split a character list on whitespace runs,
accumulating the current (reversed) word. -/
def pySplitAux : List Char → List Char → List (List Char)
  | [], acc => if acc.isEmpty then [] else [acc.reverse]
  | c :: rest, acc =>
    if c.isWhitespace then
      if acc.isEmpty then pySplitAux rest [] else acc.reverse :: pySplitAux rest []
    else pySplitAux rest (c :: acc)

/-- Python `str.split()` with no argument: split on whitespace runs,
dropping empty pieces. -/
def pySplit (s : String) : List String :=
  (pySplitAux s.data []).map String.mk

/-- Python `sep.join(words)` with a single-space separator. -/
def joinSpace : List String → String
  | [] => ""
  | [w] => w
  | w :: rest => w ++ " " ++ joinSpace rest

/-- Python `', '.join(words)`. -/
def joinComma : List String → String
  | [] => ""
  | [w] => w
  | w :: rest => w ++ ", " ++ joinComma rest

/-- Python `str.split('\n')`: split on newlines, keeping empty pieces. -/
def pyLinesAux : List Char → List Char → List (List Char)
  | [], acc => [acc.reverse]
  | c :: rest, acc =>
    if c = '\n' then acc.reverse :: pyLinesAux rest [] else pyLinesAux rest (c :: acc)

/-- Python `str.split('\n')` on a string. -/
def pyLines (s : String) : List String :=
  (pyLinesAux s.data []).map String.mk

/-- Does `needle` occur as a contiguous infix of `hay`? -/
def listHasInfix (needle : List Char) : List Char → Bool
  | [] => needle.isEmpty
  | c :: rest => needle.isPrefixOf (c :: rest) || listHasInfix needle rest

/-- Python `needle in hay` on strings: substring containment. -/
def pyContains (hay needle : String) : Bool :=
  listHasInfix needle.data hay.data

/-- Python `x or "Unknown"` on an optional string (falsy selects the default). -/
def pyOrUnknown : Option String → String
  | none => "Unknown"
  | some s => if s == "" then "Unknown" else s

/-! ## Data model (utils/models.py) -/

/-- `CallMetadata` from utils/models.py: all fields nullable. -/
structure CallMetadata where
  call_id : Option String := none
  caller_name : Option String := none
  agent_name : Option String := none
  call_duration : Option String := none
  date_time : Option String := none
deriving DecidableEq

/-- `ConversationTurn` from utils/models.py. -/
structure ConversationTurn where
  speaker : String
  text : String
deriving DecidableEq

/-- `CallData` from utils/models.py. -/
structure CallData where
  metadata : CallMetadata
  conversation : String
  conversation_turns : List ConversationTurn := []
deriving DecidableEq

/-- `CallSummary` from utils/models.py. -/
structure CallSummary where
  brief_summary : String
  key_points : List String
  customer_issue : Option String := none
  resolution : Option String := none
  action_items : List String := []
deriving DecidableEq

/-- `QualityScore` from utils/models.py; scores are `ℚ` in the embedding. -/
structure QualityScore where
  overall_score : ℚ
  tone_score : ℚ
  professionalism_score : ℚ
  resolution_score : ℚ
  response_time_score : ℚ
  feedback : String
  strengths : List String := []
  areas_for_improvement : List String := []
deriving DecidableEq

/-- `ValidationAndMetadata` from utils/models.py (the structured reply of the
combined validation/extraction LLM call). -/
structure ValidationAndMetadata where
  is_valid : Bool
  validation_reason : String
  metadata : Option CallMetadata := none
deriving DecidableEq

/-! ## Pre-validation (CallIntakeAgent._pre_validate_transcript) -/

/-- The `conversation_indicators` list of `_pre_validate_transcript`. -/
def conversationIndicators : List String :=
  ["agent:", "caller:", "customer:", "representative:", "client:",
   "support:", "service:", "operator:", "rep:", "csr:",
   "agent -", "caller -", "customer -"]

/-- The `music_keywords` list of `_pre_validate_transcript`. -/
def musicKeywords : List String :=
  ["[music playing]", "[instrumental]", "lyrics:", "verse:", "chorus:",
   "🎵", "♪", "♫", "song:", "album:", "artist:"]

/-- `any(indicator in text_lower for indicator in conversation_indicators)`. -/
def hasConversationPattern (textLower : String) : Bool :=
  conversationIndicators.any fun ind => pyContains textLower ind

/-- `text.count('.') + text.count('!') + text.count('?')` (over the original,
unstripped text, as in the source). -/
def sentenceTerminators (text : String) : Nat :=
  text.data.count '.' + text.data.count '!' + text.data.count '?'

/-- `sum(1 for c in text if not c.isalnum() and not c.isspace())` over the
original text (ASCII character classes in the embedding). -/
def specialCharCount (text : String) : Nat :=
  (text.data.filter fun c => !c.isAlphanum && !c.isWhitespace).length

/-- `special_char_count / len(text) if len(text) > 0 else 0`, as an exact
rational in place of Python float division. -/
def specialCharFrac (text : String) : ℚ :=
  if text.length > 0 then (specialCharCount text : ℚ) / (text.length : ℚ) else 0

/-- `len(set(words)) / len(words)` for the repeated-pattern check. -/
def uniquenessFrac (words : List String) : ℚ :=
  ((words.dedup.length : ℚ)) / ((words.length : ℚ))

/-- The gibberish check `special_char_ratio > 0.3`, denominator-cleared so that
the kernel can evaluate it (rational division does not reduce).  Equivalent to
`specialCharFrac text > 3 / 10`: see `specialCharExceeds_iff`. -/
def specialCharExceeds (text : String) : Bool :=
  3 * text.length < 10 * specialCharCount text

/-- The spam check `uniqueness_ratio < 0.3`, denominator-cleared.  Equivalent
to `uniquenessFrac words < 3 / 10` for nonempty `words`: see
`uniquenessBelow_iff`. -/
def uniquenessBelow (words : List String) : Bool :=
  10 * words.dedup.length < 3 * words.length

/-- The denominator-cleared gibberish check agrees with the exact fraction. -/
theorem specialCharExceeds_iff (text : String) :
    specialCharExceeds text = true ↔ specialCharFrac text > 3 / 10 := by
  unfold specialCharFrac
  rcases Nat.eq_zero_or_pos text.length with h | h
  · have hc : specialCharCount text = 0 := by
      have hle := List.length_filter_le
        (fun c => !c.isAlphanum && !c.isWhitespace) text.data
      have hl : text.data.length = 0 := h
      unfold specialCharCount
      omega
    rw [if_neg (by omega)]
    constructor
    · intro hb
      exfalso
      simp only [specialCharExceeds, h, hc, decide_eq_true_eq] at hb
      omega
    · intro hb
      exfalso
      rw [gt_iff_lt] at hb
      norm_num at hb
  · have hgt : (0 : ℚ) < (text.length : ℚ) := by exact_mod_cast h
    rw [if_pos h]
    simp only [specialCharExceeds, decide_eq_true_eq]
    rw [gt_iff_lt, div_lt_div_iff₀ (by norm_num) hgt]
    constructor
    · intro hb
      have hb' : ((3 * text.length : ℕ) : ℚ) < ((10 * specialCharCount text : ℕ) : ℚ) := by
        exact_mod_cast hb
      push_cast at hb'
      linarith
    · intro hb
      have hb' : ((3 * text.length : ℕ) : ℚ) < ((10 * specialCharCount text : ℕ) : ℚ) := by
        push_cast
        linarith
      exact_mod_cast hb'

/-- The denominator-cleared spam check agrees with the exact fraction on
nonempty word lists. -/
theorem uniquenessBelow_iff (words : List String) (h : 0 < words.length) :
    uniquenessBelow words = true ↔ uniquenessFrac words < 3 / 10 := by
  unfold uniquenessFrac
  have hgt : (0 : ℚ) < (words.length : ℚ) := by exact_mod_cast h
  simp only [uniquenessBelow, decide_eq_true_eq]
  rw [div_lt_div_iff₀ hgt (by norm_num)]
  constructor
  · intro hb
    have hb' : ((10 * words.dedup.length : ℕ) : ℚ) < ((3 * words.length : ℕ) : ℚ) := by
      exact_mod_cast hb
    push_cast at hb'
    linarith
  · intro hb
    have hb' : ((10 * words.dedup.length : ℕ) : ℚ) < ((3 * words.length : ℕ) : ℚ) := by
      push_cast
      linarith
    exact_mod_cast hb'

/-- `CallIntakeAgent._pre_validate_transcript`: the ordered chain of cheap
heuristic checks; returns the first failing check's message, `none` if all
pass.  The final character-encoding check (`text.encode('utf-8')`) cannot
fail in the embedding because Lean strings are always valid Unicode, so it
is the identity here. -/
def preValidateTranscript (text : String) : Option String :=
  if (pyStrip text).length < 50 then
    some "Transcript too short (minimum 50 characters)"
  else if 100000 < (pyStrip text).length then
    some ("Transcript too long (" ++ toString (pyStrip text).length ++
      " characters). Maximum 100,000 characters allowed.")
  else if !(hasConversationPattern (pyLower (pyStrip text))) && sentenceTerminators text < 3 then
    some "Does not appear to be a conversation transcript (no speaker labels or dialogue detected)"
  else if musicKeywords.any (fun k => pyContains (pyLower (pyStrip text)) k) then
    some "Appears to be music or lyrics, not a call center conversation"
  else if specialCharExceeds text then
    some "Transcript contains excessive special characters or appears to be gibberish"
  else if (pySplit (pyStrip text)).length < 20 then
    some ("Transcript too short (" ++ toString (pySplit (pyStrip text)).length ++
      " words). Minimum 20 words required.")
  else if 10 < (pySplit (pyStrip text)).length &&
      uniquenessBelow (pySplit (pyStrip text)) then
    some "Transcript appears to be repetitive or spam"
  else
    none

/-- The failure condition of the `i`-th pre-validation check, in the order in
which `_pre_validate_transcript` runs them: 0 too short, 1 too long, 2 not a
dialogue, 3 music/lyrics, 4 special-character density, 5 word count,
6 repetitive/spam, 7 character encoding.  Check 7 never fails in the
embedding: a Lean `String` is always valid Unicode, so `text.encode('utf-8')`
cannot raise. -/
def pvCheckFails (text : String) : ℕ → Bool
  | 0 => (pyStrip text).length < 50
  | 1 => 100000 < (pyStrip text).length
  | 2 => !(hasConversationPattern (pyLower (pyStrip text))) && sentenceTerminators text < 3
  | 3 => musicKeywords.any fun k => pyContains (pyLower (pyStrip text)) k
  | 4 => specialCharExceeds text
  | 5 => (pySplit (pyStrip text)).length < 20
  | 6 => 10 < (pySplit (pyStrip text)).length && uniquenessBelow (pySplit (pyStrip text))
  | _ => false

/-- The specific rejection message of the `i`-th pre-validation check. -/
def pvReason (text : String) : ℕ → String
  | 0 => "Transcript too short (minimum 50 characters)"
  | 1 => "Transcript too long (" ++ toString (pyStrip text).length ++
      " characters). Maximum 100,000 characters allowed."
  | 2 => "Does not appear to be a conversation transcript (no speaker labels or dialogue detected)"
  | 3 => "Appears to be music or lyrics, not a call center conversation"
  | 4 => "Transcript contains excessive special characters or appears to be gibberish"
  | 5 => "Transcript too short (" ++ toString (pySplit (pyStrip text)).length ++
      " words). Minimum 20 words required."
  | 6 => "Transcript appears to be repetitive or spam"
  | 7 => "Transcript contains invalid characters or encoding issues"
  | _ => ""

/-- C5: pre-validation applies its checks in the fixed order — length bounds,
speaker-label/sentence-terminator dialogue test, music/lyric blacklist,
special-character density, minimum word count, unique-word ratio, character
encoding — the first failing check wins and returns its specific reason, and
passing all checks returns `none`.  Stated as: `_pre_validate_transcript`
equals the first-hit scan of the indexed checks 0–7 in that order. -/
theorem pre_validation_first_failure_wins (text : String) :
    preValidateTranscript text =
      (List.range 8).findSome? fun i =>
        if pvCheckFails text i then some (pvReason text i) else none := by
  have hr : List.range 8 = [0, 1, 2, 3, 4, 5, 6, 7] := rfl
  rw [hr]
  by_cases h0 : (pyStrip text).length < 50
  · simp [preValidateTranscript, pvCheckFails, pvReason, h0, List.findSome?]
  · by_cases h1 : 100000 < (pyStrip text).length
    · simp [preValidateTranscript, pvCheckFails, pvReason, h0, h1, List.findSome?]
    · by_cases h2 : (!(hasConversationPattern (pyLower (pyStrip text))) &&
          sentenceTerminators text < 3) = true
      · simp [preValidateTranscript, pvCheckFails, pvReason, h0, h1, h2, List.findSome?]
      · by_cases h3 : (musicKeywords.any fun k => pyContains (pyLower (pyStrip text)) k) = true
        · simp [preValidateTranscript, pvCheckFails, pvReason, h0, h1, h2, h3, List.findSome?]
        · by_cases h4 : specialCharExceeds text = true
          · simp [preValidateTranscript, pvCheckFails, pvReason, h0, h1, h2, h3, h4,
              List.findSome?]
          · by_cases h5 : (pySplit (pyStrip text)).length < 20
            · simp [preValidateTranscript, pvCheckFails, pvReason, h0, h1, h2, h3, h4, h5,
                List.findSome?]
            · by_cases h6 : (10 < (pySplit (pyStrip text)).length &&
                  uniquenessBelow (pySplit (pyStrip text))) = true
              · simp [preValidateTranscript, pvCheckFails, pvReason, h0, h1, h2, h3, h4, h5, h6,
                  List.findSome?]
              · simp [preValidateTranscript, pvCheckFails, pvReason, h0, h1, h2, h3, h4, h5, h6,
                  List.findSome?]

/-! ## Conversation extraction (CallIntakeAgent._extract_conversation) -/

/-- One element of the `turns` array in the extraction LLM's JSON reply;
both keys are read with `.get(..., default)` in the source, hence optional. -/
structure ConvTurnJson where
  speaker : Option String := none
  text : Option String := none
deriving DecidableEq

/-- The JSON object `_extract_conversation` expects from the LLM:
`{"conversation": ..., "turns": [...]}`, each key read with a default. -/
structure ConvJson where
  conversation : Option String := none
  turns : Option (List ConvTurnJson) := none
deriving DecidableEq

/-- `CallIntakeAgent._extract_conversation`: the LLM round trip and JSON parse
are the `reply` argument; `.error` covers any exception (service failure or
malformed JSON), which the source catches and answers with the raw text and
an empty turn list. -/
def extractConversation (text : String) (reply : Except String ConvJson) :
    String × List ConversationTurn :=
  match reply with
  | .error _ => (text, [])
  | .ok result =>
      (result.conversation.getD "",
       (result.turns.getD []).map fun turn =>
         { speaker := turn.speaker.getD "Unknown", text := turn.text.getD "" })

/-! ## Duplicate detection and intake (CallIntakeAgent.process) -/

/-- `_compute_transcript_hash`'s normalization step:
`' '.join(transcript.lower().strip().split())`. -/
def normalizeTranscript (t : String) : String :=
  joinSpace (pySplit (pyStrip (pyLower t)))

/-- `_store_hash`: append the digest to the registry unless already present. -/
def storeHash (registry : List String) (h : String) : List String :=
  if h ∈ registry then registry else registry ++ [h]

/-- The possible outcomes of `CallIntakeAgent.process`, in the order the
source can produce them. -/
inductive IntakeResult where
  | noTranscript
  | duplicate
  | preValidationFailed (reason : String)
  | llmInvalid (reason : String)
  | success (cd : CallData)
deriving DecidableEq

/-- The state `CallIntakeAgent.process` leaves behind: its result and the
fingerprint registry (the `transcript_hashes.json` file). -/
structure IntakeOut where
  result : IntakeResult
  registry : List String
deriving DecidableEq

/-- `CallIntakeAgent.process`, with the persistent registry explicit and the
two LLM calls as inputs.  `hash` models SHA-256 (`_compute_transcript_hash`
applies it to the normalized text); the duplicate check runs before
pre-validation, and the digest is stored only on the success path. -/
def intakeProcess (hash : String → String) (registry : List String)
    (transcript : Option String) (llmReply : ValidationAndMetadata)
    (convReply : Except String ConvJson) : IntakeOut :=
  let t := transcript.getD ""
  if t == "" then
    { result := .noTranscript, registry := registry }
  else
    let digest := hash (normalizeTranscript t)
    if digest ∈ registry then
      { result := .duplicate, registry := registry }
    else
      match preValidateTranscript t with
      | some reason => { result := .preValidationFailed reason, registry := registry }
      | none =>
        if !llmReply.is_valid then
          { result := .llmInvalid ("Not a valid call center conversation: " ++
              llmReply.validation_reason), registry := registry }
        else
          let metadata := llmReply.metadata.getD {}
          let conv := extractConversation t convReply
          { result := .success
              { metadata := metadata, conversation := conv.1, conversation_turns := conv.2 },
            registry := storeHash registry digest }

/-- C9: when turn extraction fails to produce well-formed output, the
extractor returns the raw input text as the conversation together with an
empty turn list, rather than failing the call with an error. -/
theorem extract_conversation_degrades_gracefully (text e : String) :
    extractConversation text (.error e) = (text, []) := rfl

/-- On the success path, `process` appends exactly the (previously absent)
digest of the normalized transcript to the registry, and the transcript was
nonempty. -/
theorem intake_success_registry (hash : String → String) (reg : List String)
    (t : String) (llm : ValidationAndMetadata) (conv : Except String ConvJson)
    (cd : CallData)
    (h : (intakeProcess hash reg (some t) llm conv).result = .success cd) :
    (intakeProcess hash reg (some t) llm conv).registry
        = reg ++ [hash (normalizeTranscript t)] ∧
    hash (normalizeTranscript t) ∉ reg ∧ t ≠ "" := by
  by_cases ht : (t == "") = true
  · exfalso
    simp [intakeProcess, ht] at h
  · by_cases hd : hash (normalizeTranscript t) ∈ reg
    · exfalso
      simp [intakeProcess, ht, hd] at h
    · cases hpre : preValidateTranscript t with
      | some r =>
        exfalso
        simp [intakeProcess, ht, hd, hpre] at h
      | none =>
        by_cases hv : llm.is_valid
        · refine ⟨?_, hd, by simpa using ht⟩
          simp [intakeProcess, ht, hd, hpre, hv, storeHash]
        · exfalso
          simp [intakeProcess, ht, hd, hpre, hv] at h

/-- One submission to the intake agent: the transcript together with the
replies the two LLM calls would give for it. -/
structure Submission where
  transcript : String
  llm : ValidationAndMetadata
  conv : Except String ConvJson

/-- Thread a list of submissions through `CallIntakeAgent.process`,
returning the final fingerprint registry. -/
def intakeRunAll (hash : String → String) (registry : List String) :
    List Submission → List String
  | [] => registry
  | sub :: rest =>
      intakeRunAll hash
        (intakeProcess hash registry (some sub.transcript) sub.llm sub.conv).registry rest

/-- Every submission in the list is processed successfully (reaches the
`call_data` branch) when run in sequence from the given registry. -/
def intakeAllSucceed (hash : String → String) (registry : List String) :
    List Submission → Prop
  | [] => True
  | sub :: rest =>
      (∃ cd, (intakeProcess hash registry (some sub.transcript) sub.llm sub.conv).result
          = .success cd) ∧
      intakeAllSucceed hash
        (intakeProcess hash registry (some sub.transcript) sub.llm sub.conv).registry rest

/-- Each successful submission grows the registry by exactly one entry. -/
theorem intakeRunAll_length (hash : String → String) (subs : List Submission)
    (reg : List String) (h : intakeAllSucceed hash reg subs) :
    (intakeRunAll hash reg subs).length = reg.length + subs.length := by
  induction subs generalizing reg with
  | nil => simp [intakeRunAll]
  | cons sub rest ih =>
    obtain ⟨⟨cd, hcd⟩, hrest⟩ := h
    have hr := (intake_success_registry hash reg sub.transcript sub.llm sub.conv cd hcd).1
    have hstep : intakeRunAll hash reg (sub :: rest)
        = intakeRunAll hash
            (intakeProcess hash reg (some sub.transcript) sub.llm sub.conv).registry rest := rfl
    rw [hstep, ih _ hrest, hr]
    simp
    omega

/-- C3 (amended): resubmitting a transcript whose FIRST submission was
processed successfully (hash recorded) yields `DuplicateInput` for any second
submission with the same normalized content, leaving the registry unchanged;
and after N successfully processed submissions starting from an empty
registry, the registry holds exactly N entries. -/
theorem intake_idempotence_amended :
    (∀ (hash : String → String) (reg : List String) (t t' : String)
        (llm llm' : ValidationAndMetadata) (conv conv' : Except String ConvJson)
        (cd : CallData),
      (intakeProcess hash reg (some t) llm conv).result = .success cd →
      normalizeTranscript t' = normalizeTranscript t →
      t' ≠ "" →
      (intakeProcess hash (intakeProcess hash reg (some t) llm conv).registry
          (some t') llm' conv').result = .duplicate ∧
      (intakeProcess hash (intakeProcess hash reg (some t) llm conv).registry
          (some t') llm' conv').registry
        = (intakeProcess hash reg (some t) llm conv).registry) ∧
    (∀ (hash : String → String) (subs : List Submission),
      intakeAllSucceed hash [] subs → (intakeRunAll hash [] subs).length = subs.length) := by
  constructor
  · intro hash reg t t' llm llm' conv conv' cd hs hnorm ht'
    obtain ⟨hreg, -, -⟩ := intake_success_registry hash reg t llm conv cd hs
    have ht'' : (t' == "") = false := by simp [ht']
    generalize hR : (intakeProcess hash reg (some t) llm conv).registry = R at hreg ⊢
    have hmem : hash (normalizeTranscript t') ∈ R := by
      rw [hreg, hnorm]
      simp
    constructor
    · simp [intakeProcess, ht'', hmem]
    · simp [intakeProcess, ht'', hmem]
  · intro hash subs h
    simpa using intakeRunAll_length hash subs [] h

/-- C3, as stated, is false: a transcript that fails pre-validation is not
fingerprinted, so its second submission reports the pre-validation failure
again, not `DuplicateInput`, and one unique submission leaves zero registry
entries. -/
theorem intake_idempotence_counterexample :
    (intakeProcess id [] (some "hello") ⟨true, "", none⟩ (.error "e")).result
        = .preValidationFailed "Transcript too short (minimum 50 characters)" ∧
    (intakeProcess id
        (intakeProcess id [] (some "hello") ⟨true, "", none⟩ (.error "e")).registry
        (some "hello") ⟨true, "", none⟩ (.error "e")).result
        = .preValidationFailed "Transcript too short (minimum 50 characters)" ∧
    ¬ (intakeProcess id
        (intakeProcess id [] (some "hello") ⟨true, "", none⟩ (.error "e")).registry
        (some "hello") ⟨true, "", none⟩ (.error "e")).result = .duplicate ∧
    (intakeProcess id [] (some "hello") ⟨true, "", none⟩ (.error "e")).registry.length = 0 := by
  decide

/-- A concrete transcript that passes pre-validation: a two-speaker dialogue
of more than 50 characters and 20 words. -/
def sampleTranscript : String :=
  "Agent: Hello, how can I help you today? Caller: I need some help with my latest bill please. Agent: Sure, I can certainly help with that right away. Thank you for calling us."

/-- Witness for `intake_idempotence_amended` at a concrete successful
submission: the resubmission is a duplicate and one successful submission
yields one registry entry. -/
theorem intake_idempotence_amended_witness :
    (intakeProcess id
        (intakeProcess id [] (some sampleTranscript) ⟨true, "ok", none⟩ (.error "e")).registry
        (some sampleTranscript) ⟨true, "ok", none⟩ (.error "e")).result = .duplicate ∧
    (intakeRunAll id [] [⟨sampleTranscript, ⟨true, "ok", none⟩, .error "e"⟩]).length = 1 := by
  constructor
  · exact (intake_idempotence_amended.1 id [] sampleTranscript sampleTranscript
      ⟨true, "ok", none⟩ ⟨true, "ok", none⟩ (.error "e") (.error "e")
      ⟨{}, sampleTranscript, []⟩ (by decide) rfl (by decide)).1
  · exact intake_idempotence_amended.2 id [⟨sampleTranscript, ⟨true, "ok", none⟩, .error "e"⟩]
      ⟨⟨⟨{}, sampleTranscript, []⟩, by decide⟩, trivial⟩

/-! ## Content safety (utils/guardrails.py, agents/content_safety_agent.py) -/

/-- The reply of OpenAI's moderation endpoint as the source consumes it:
the top-level `flagged` bit, the per-category booleans, and the per-category
scores. -/
structure ModerationResult where
  flagged : Bool
  categories : List (String × Bool)
  category_scores : List (String × ℚ)
deriving DecidableEq

/-- The details dict built by `ContentSafetyGuardrails.check_content`
(keys `error`/`check_failed` on the failure branch, keys
`flagged`/`categories`/`all_scores` on the normal branch). -/
structure CheckDetails where
  error : Option String := none
  check_failed : Bool := false
  flagged : Option Bool := none
  categories : List String := []
  all_scores : List (String × ℚ) := []
deriving DecidableEq

/-- One entry of the `violations` list in `check_transcript_safety`. -/
structure SafetyViolation where
  vtype : String
  message : String
  details : CheckDetails
deriving DecidableEq

/-- The results dict of `GuardrailsManager.check_transcript_safety`. -/
structure SafetyResults where
  passed : Bool
  violations : List SafetyViolation
  warnings : List String
  flagged_categories : List String
deriving DecidableEq

/-- `ContentSafetyGuardrails.check_content`: the moderation round trip is the
`reply` argument; its except-branch (service failure) returns
`(True, {"error": ..., "check_failed": True})` — fail open. -/
def checkContent (reply : Except String ModerationResult) (strict_mode : Bool) :
    Bool × CheckDetails :=
  match reply with
  | .error e => (true, { error := some e, check_failed := true })
  | .ok result =>
      let flagged := (result.categories.filter fun p => p.2).map fun p => p.1
      let flagged :=
        if strict_mode && flagged.isEmpty then
          (result.category_scores.filter fun p => 1 / 10 < p.2).map fun p => p.1 ++ "_warning"
        else flagged
      let is_safe := flagged.isEmpty
      (is_safe,
       { flagged := some result.flagged, categories := flagged,
         all_scores := if is_safe then [] else result.category_scores })

/-- `GuardrailsManager.check_transcript_safety` (with the content-safety
check enabled, its default configuration): note that on the passing branch
the details returned by `check_content` are discarded. -/
def checkTranscriptSafety (reply : Except String ModerationResult) : SafetyResults :=
  let checked := checkContent reply false
  if !checked.1 then
    { passed := false,
      violations := [{ vtype := "content_safety",
                       message := "Transcript contains inappropriate content",
                       details := checked.2 }],
      warnings := [],
      flagged_categories := checked.2.categories }
  else
    { passed := true, violations := [], warnings := [], flagged_categories := [] }

/-- The value of the `content_safety_details` state key: `{}` initially, the
manager's results dict after a check, or `{"error": ...}` from the agent's
own except-branch. -/
inductive SafetyDetails where
  | empty
  | results (r : SafetyResults)
  | errMsg (e : String)
deriving DecidableEq

/-- Where an error message could be recorded inside the
`content_safety_details` state value, if anywhere. -/
def annotatedError : SafetyDetails → Option String
  | .empty => none
  | .errMsg e => some e
  | .results r => r.violations.findSome? fun v => v.details.error

/-! ## Workflow state and routers (agents/workflow.py) -/

/-- The LangGraph `GraphState` dict, with the fields the routed agents read
and write. -/
structure WFState where
  input_type : String := "text"
  input_content : String := ""
  transcript : Option String := none
  call_data : Option CallData := none
  summary : Option CallSummary := none
  quality_score : Option QualityScore := none
  storage_path : Option String := none
  needs_manual_review : Bool := false
  error : Option String := none
  validation_failed : Bool := false
  content_safety_passed : Bool := true
  content_safety_details : SafetyDetails := .empty
  processing_steps : List String := []
deriving DecidableEq

/-- `ContentSafetyAgent.process`: check the transcript, set
`content_safety_passed` and `content_safety_details`.  Flagged content sets
the manual-review flag but deliberately not the `error` field. -/
def contentSafetyProcess (s : WFState) (reply : Except String ModerationResult) : WFState :=
  let t := s.transcript.getD ""
  if t == "" then
    { s with content_safety_passed := true,
             content_safety_details := .empty,
             processing_steps := s.processing_steps ++ ["Content Safety: No transcript to check"] }
  else
    let results := checkTranscriptSafety reply
    if !results.passed then
      { s with content_safety_passed := false,
               content_safety_details := .results results,
               needs_manual_review := true,
               processing_steps := s.processing_steps ++
                 ["🚨 Content Safety: FLAGGED - " ++ joinComma results.flagged_categories] }
    else
      { s with content_safety_passed := true,
               content_safety_details := .results results,
               processing_steps := s.processing_steps ++
                 ["Content Safety: Transcript approved"] }

/-- The nodes of the workflow graph (plus `terminal` for LangGraph's END). -/
inductive WFNode where
  | transcription
  | content_safety
  | call_intake
  | summarization
  | quality_scoring
  | data_storage
  | terminal
deriving DecidableEq

/-- `CallCenterWorkflow._should_continue_after_safety_check`: the flagged
check runs first, before the error check. -/
def shouldContinueAfterSafetyCheck (s : WFState) : String :=
  if !s.content_safety_passed then "store_flagged"
  else if pyTruthyStr s.error then "end"
  else "continue"

/-- `CallCenterWorkflow._should_continue_after_intake`. -/
def shouldContinueAfterIntake (s : WFState) : String :=
  if pyTruthyStr s.error || s.validation_failed then "end"
  else if !s.call_data.isSome then "end"
  else "continue"

/-- `CallCenterWorkflow._should_do_quality_scoring`: always score when
`call_data` exists (the agent name is not consulted). -/
def shouldDoQualityScoring (s : WFState) : String :=
  if !s.call_data.isSome then "skip" else "score"

/-- The conditional-edge mapping installed for the content-safety node in
`_build_graph`. -/
def safetyEdge (r : String) : Option WFNode :=
  if r == "continue" then some .call_intake
  else if r == "store_flagged" then some .data_storage
  else if r == "end" then some .terminal
  else none

/-- The conditional-edge mapping installed for the summarization node in
`_build_graph`. -/
def scoringEdge (r : String) : Option WFNode :=
  if r == "score" then some .quality_scoring
  else if r == "skip" then some .data_storage
  else none

/-- C2: after the Summarize stage the orchestrator routes to quality scoring
whenever CallData exists — regardless of whether an agent name was identified
— and skips directly to storage only when CallData is absent. -/
theorem summarize_routes_to_scoring (s : WFState) :
    (∀ cd : CallData, s.call_data = some cd →
      scoringEdge (shouldDoQualityScoring s) = some WFNode.quality_scoring) ∧
    (s.call_data = none →
      scoringEdge (shouldDoQualityScoring s) = some WFNode.data_storage) := by
  constructor
  · intro cd h
    simp [shouldDoQualityScoring, scoringEdge, h]
  · intro h
    simp [shouldDoQualityScoring, scoringEdge, h]

/-- Witness for `summarize_routes_to_scoring`: call data with no agent name
still routes to scoring; absent call data routes to storage. -/
theorem summarize_routes_to_scoring_witness :
    scoringEdge (shouldDoQualityScoring
        { call_data := some { metadata := { agent_name := none }, conversation := "hi" } })
      = some WFNode.quality_scoring ∧
    scoringEdge (shouldDoQualityScoring {}) = some WFNode.data_storage :=
  ⟨(summarize_routes_to_scoring _).1 _ rfl, (summarize_routes_to_scoring _).2 rfl⟩

/-- C6: leaving the safety-check stage, the orchestrator routes to the
flagged-content storage path whenever the safety check did not pass (even if
a terminal error is also set — that branch is tested first), to End when the
check passed but a terminal error exists, and otherwise to intake. -/
theorem safety_check_routing (s : WFState) :
    (s.content_safety_passed = false →
      safetyEdge (shouldContinueAfterSafetyCheck s) = some WFNode.data_storage) ∧
    (s.content_safety_passed = true → pyTruthyStr s.error = true →
      safetyEdge (shouldContinueAfterSafetyCheck s) = some WFNode.terminal) ∧
    (s.content_safety_passed = true → pyTruthyStr s.error = false →
      safetyEdge (shouldContinueAfterSafetyCheck s) = some WFNode.call_intake) := by
  refine ⟨fun h => ?_, fun h he => ?_, fun h he => ?_⟩
  · simp [shouldContinueAfterSafetyCheck, safetyEdge, h]
  · simp [shouldContinueAfterSafetyCheck, safetyEdge, h, he]
  · simp [shouldContinueAfterSafetyCheck, safetyEdge, h, he]

/-- Witness for `safety_check_routing`: a failed safety check routes to the
flagged store even with an error set; a passed check with an error ends; the
clean state continues to intake. -/
theorem safety_check_routing_witness :
    safetyEdge (shouldContinueAfterSafetyCheck
        { content_safety_passed := false, error := some "boom" }) = some WFNode.data_storage ∧
    safetyEdge (shouldContinueAfterSafetyCheck { error := some "boom" })
      = some WFNode.terminal ∧
    safetyEdge (shouldContinueAfterSafetyCheck {}) = some WFNode.call_intake :=
  ⟨(safety_check_routing _).1 rfl, (safety_check_routing _).2.1 rfl rfl,
   (safety_check_routing _).2.2 rfl rfl⟩

/-- C7, as stated, is false at the pipeline level: on a moderation failure
the gate does fail open (`content_safety_passed = true`), but the error
annotation produced by `check_content` is discarded by
`check_transcript_safety`, so the safety details the pipeline records carry
no error. -/
theorem safety_fail_open_counterexample :
    (contentSafetyProcess { transcript := some "Agent: hello" }
        (.error "timeout")).content_safety_passed = true ∧
    annotatedError (contentSafetyProcess { transcript := some "Agent: hello" }
        (.error "timeout")).content_safety_details = none := by
  decide

/-- C7 (amended): on a moderation failure the gate fails open —
`check_content` reports the content as passed and annotates its own details
dict with the error and `check_failed`, the agent reports
`content_safety_passed = true`, and the pipeline routes on to intake — but
the manager discards `check_content`'s details on the passing branch, so the
pipeline-level safety details carry no error annotation. -/
theorem safety_fail_open_amended (s : WFState) (e : String)
    (ht : pyTruthyStr s.transcript = true) (he : pyTruthyStr s.error = false) :
    (checkContent (.error e) false).1 = true ∧
    (checkContent (.error e) false).2.error = some e ∧
    (checkContent (.error e) false).2.check_failed = true ∧
    (contentSafetyProcess s (.error e)).content_safety_passed = true ∧
    annotatedError (contentSafetyProcess s (.error e)).content_safety_details = none ∧
    safetyEdge (shouldContinueAfterSafetyCheck (contentSafetyProcess s (.error e)))
      = some WFNode.call_intake := by
  cases hs : s.transcript with
  | none => simp [pyTruthyStr, hs] at ht
  | some t =>
    rw [hs] at ht
    have htne : (t == "") = false := by simpa [pyTruthyStr] using ht
    refine ⟨rfl, rfl, rfl, ?_, ?_, ?_⟩
    · simp [contentSafetyProcess, checkTranscriptSafety, checkContent, hs, htne]
    · simp [contentSafetyProcess, checkTranscriptSafety, checkContent, hs, htne,
        annotatedError]
    · simp [contentSafetyProcess, checkTranscriptSafety, checkContent, hs, htne,
        shouldContinueAfterSafetyCheck, safetyEdge, he]

/-- Witness for `safety_fail_open_amended` at a concrete state and error. -/
theorem safety_fail_open_amended_witness :
    (contentSafetyProcess { transcript := some "Caller: hi there" }
        (.error "timeout")).content_safety_passed = true ∧
    safetyEdge (shouldContinueAfterSafetyCheck
        (contentSafetyProcess { transcript := some "Caller: hi there" } (.error "timeout")))
      = some WFNode.call_intake := by
  have h := safety_fail_open_amended { transcript := some "Caller: hi there" } "timeout"
    (by decide) (by decide)
  exact ⟨h.2.2.2.1, h.2.2.2.2.2⟩

/-! ## Fallback scoring (QualityScoringAgent._create_fallback_score)

The five regex extractions over the raw LLM text —
`tone[^:]*:\s*(\d+(\.\d+)?)`, `professionalism[^:]*:`, `resolution[^:]*:`,
`response[^:]*:` and `overall[^:]*:`, all case-insensitive — are the five
`Option ℚ` inputs of the embedding (`none` when the pattern does not match
the text); the regex engine itself stays outside the embedding.  Everything
after the extractions (deriving `overall`, the sufficiency check, the
strengths/improvements line scan, the assembled `QualityScore`) is
translated from the source. -/

/-- Python `line.startswith(('-', '•', '*'))`. -/
def startsBullet (l : String) : Bool :=
  "-".data.isPrefixOf l.data || "•".data.isPrefixOf l.data || "*".data.isPrefixOf l.data

/-- Python `line.lstrip('-•* ')`. -/
def stripBullet (l : String) : String :=
  ⟨l.data.dropWhile fun c => c == '-' || c == '•' || c == '*' || c == ' '⟩

/-- The strengths/improvements line scan of `_create_fallback_score`:
`'strength'` in a line selects the strengths section, `'improvement'` or
`'area'` the improvements section, and bulleted lines are collected into the
current section. -/
def scanSections : Option Bool → List String → List String × List String
  | _, [] => ([], [])
  | sect, line :: rest =>
    let l := pyStrip line
    if pyContains (pyLower l) "strength" then scanSections (some true) rest
    else if pyContains (pyLower l) "improvement" || pyContains (pyLower l) "area" then
      scanSections (some false) rest
    else
      let tail := scanSections sect rest
      if sect == some true && startsBullet l then (stripBullet l :: tail.1, tail.2)
      else if sect == some false && startsBullet l then (tail.1, stripBullet l :: tail.2)
      else tail

/-- Lines 239–250 of the source: when `overall` was not matched in the text
but some scores were, derive it as the mean of the found dimensions. -/
def deriveOverall (overall : Option ℚ) (foundDims : List ℚ) : Option ℚ :=
  match overall with
  | some v => some v
  | none => if foundDims.isEmpty then none else some (foundDims.sum / foundDims.length)

/-- `QualityScoringAgent._create_fallback_score` after the five regex
extractions: derive the overall score if absent, give up (`none`, meaning
`InsufficientData`) when the data is deemed insufficient, otherwise assemble
a `QualityScore` with `0.0` for every unmatched dimension. -/
def createFallbackScore (tone prof res resp overall : Option ℚ)
    (raw_text : String) : Option QualityScore :=
  let foundDims := [tone, prof, res, resp].reduceOption
  let overallScore := deriveOverall overall foundDims
  let nScores := foundDims.length + if overallScore.isSome then 1 else 0
  let has_enough_data := overallScore.isSome || 2 ≤ nScores
  if !has_enough_data then none
  else
    let scanned := scanSections none (pyLines raw_text)
    let strengths := if scanned.1.isEmpty then ["Professional communication"] else scanned.1
    let improvements :=
      if scanned.2.isEmpty then ["Manual review needed - automated scoring incomplete"]
      else scanned.2
    some { overall_score := overallScore.getD 0,
           tone_score := tone.getD 0,
           professionalism_score := prof.getD 0,
           resolution_score := res.getD 0,
           response_time_score := resp.getD 0,
           feedback := "⚠️ Partial extraction (" ++ toString nScores ++ " scores found). " ++
             (if 400 < raw_text.length then ⟨raw_text.data.take 400⟩ else raw_text),
           strengths := strengths,
           areas_for_improvement := improvements }

/-- C1 fails on the code: for the raw response `"tone: 8"` exactly one
dimension and no overall score are recoverable from the text, yet the
fallback returns a `QualityScore` (overall derived from the single
dimension) instead of `InsufficientData` — the derived overall passes the
sufficiency check that, per the source's own comment, should require the
overall score or two individual scores from the text. -/
theorem fallback_single_dim_returns_score :
    ∃ qs, createFallbackScore (some 8) none none none none "tone: 8" = some qs ∧
      qs.overall_score = 8 ∧ qs.tone_score = 8 ∧ qs.professionalism_score = 0 ∧
      qs.resolution_score = 0 ∧ qs.response_time_score = 0 := by
  refine ⟨_, rfl, ?_, rfl, rfl, rfl, rfl⟩
  show ((deriveOverall none [(8 : ℚ)]).getD 0) = 8
  norm_num [deriveOverall]

/-- C10: when the fallback recovers some but not all of the four dimensions
(and no overall) from the text, each unrecovered dimension field is stored
as `0.0` while `overall_score` is the mean of only the recovered dimensions
— so the stored overall can differ from the mean of the four stored fields. -/
theorem fallback_partial_dims_zero_filled (tone prof res resp : Option ℚ)
    (raw : String)
    (hsome : ([tone, prof, res, resp].reduceOption) ≠ [])
    (hnotall : ([tone, prof, res, resp].reduceOption).length < 4) :
    ∃ qs, createFallbackScore tone prof res resp none raw = some qs ∧
      qs.tone_score = tone.getD 0 ∧ qs.professionalism_score = prof.getD 0 ∧
      qs.resolution_score = res.getD 0 ∧ qs.response_time_score = resp.getD 0 ∧
      qs.overall_score = ([tone, prof, res, resp].reduceOption).sum
        / ([tone, prof, res, resp].reduceOption).length := by
  have hne : ([tone, prof, res, resp].reduceOption).isEmpty = false := by
    simpa [List.isEmpty_iff] using hsome
  have h1 : deriveOverall none ([tone, prof, res, resp].reduceOption)
      = some (([tone, prof, res, resp].reduceOption).sum
          / ([tone, prof, res, resp].reduceOption).length) := by
    simp [deriveOverall, hne]
  simp only [createFallbackScore, h1, Option.isSome_some, Bool.true_or, Bool.not_true,
    Bool.false_eq_true, if_false]
  exact ⟨_, rfl, rfl, rfl, rfl, rfl, rfl⟩

/-- Witness for `fallback_partial_dims_zero_filled`: with tone 8 and
professionalism 6 recovered, the stored overall is 7 while the mean of the
four stored dimension fields is 3.5 — the overall exceeds it. -/
theorem fallback_partial_dims_zero_filled_witness :
    ∃ qs, createFallbackScore (some 8) (some 6) none none none "" = some qs ∧
      qs.overall_score = 7 ∧
      (qs.tone_score + qs.professionalism_score + qs.resolution_score +
        qs.response_time_score) / 4 = 7 / 2 ∧
      (qs.tone_score + qs.professionalism_score + qs.resolution_score +
        qs.response_time_score) / 4 < qs.overall_score := by
  obtain ⟨qs, heq, ht, hp, hr, hq, ho⟩ :=
    fallback_partial_dims_zero_filled (some 8) (some 6) none none ""
      (by decide) (by decide)
  refine ⟨qs, heq, ?_, ?_, ?_⟩
  · rw [ho]
    norm_num
  · rw [ht, hp, hr, hq]
    norm_num
  · rw [ht, hp, hr, hq, ho]
    norm_num

/-! ## Analytics store (agents/data_storage_agent.py) -/

/-- One row of `agent_performance.csv` (the `last_updated` wall-clock column
is omitted: timestamps are outside the embedding). -/
structure AgentPerfRow where
  agent_name : String
  total_calls : ℕ
  average_overall_score : ℚ
  average_tone_score : ℚ
  average_professionalism_score : ℚ
  average_resolution_score : ℚ
  average_response_score : ℚ
deriving DecidableEq

/-- `DataStorageAgent._update_agent_performance`: read-modify-write of the
agent's row — running average `(oldAvg * count + new) / (count + 1)` per
dimension and `count + 1` when the agent exists, a fresh row with count 1
otherwise (appended at the end, as `df.loc[len(df)]` does). -/
def updateAgentPerformance (table : List AgentPerfRow) (agentName : Option String)
    (qs : QualityScore) : List AgentPerfRow :=
  let name := pyOrUnknown agentName
  if table.any fun r => r.agent_name == name then
    table.map fun r =>
      if r.agent_name == name then
        let currentCalls := r.total_calls
        let newCalls := currentCalls + 1
        { r with
          average_overall_score :=
            (r.average_overall_score * (currentCalls : ℚ) + qs.overall_score) / (newCalls : ℚ),
          average_tone_score :=
            (r.average_tone_score * (currentCalls : ℚ) + qs.tone_score) / (newCalls : ℚ),
          average_professionalism_score :=
            (r.average_professionalism_score * (currentCalls : ℚ) + qs.professionalism_score)
              / (newCalls : ℚ),
          average_resolution_score :=
            (r.average_resolution_score * (currentCalls : ℚ) + qs.resolution_score)
              / (newCalls : ℚ),
          average_response_score :=
            (r.average_response_score * (currentCalls : ℚ) + qs.response_time_score)
              / (newCalls : ℚ),
          total_calls := newCalls }
      else r
  else
    table ++ [{ agent_name := name, total_calls := 1,
                average_overall_score := qs.overall_score,
                average_tone_score := qs.tone_score,
                average_professionalism_score := qs.professionalism_score,
                average_resolution_score := qs.resolution_score,
                average_response_score := qs.response_time_score }]

/-- Commit a sequence of scored calls for one agent, in order. -/
def commitScores (table : List AgentPerfRow) (agentName : Option String)
    (l : List QualityScore) : List AgentPerfRow :=
  l.foldl (fun t q => updateAgentPerformance t agentName q) table

theorem pyOrUnknown_some (n : String) (hn : n ≠ "") : pyOrUnknown (some n) = n := by
  simp [pyOrUnknown, hn]

/-- `find?` skips a block of elements on which the predicate fails. -/
theorem find?_append_of_none {α : Type} (p : α → Bool) (l1 l2 : List α)
    (h : ∀ r ∈ l1, p r = false) :
    List.find? p (l1 ++ l2) = List.find? p l2 := by
  induction l1 with
  | nil => rfl
  | cons a t ih =>
    rw [List.cons_append, List.find?_cons_of_neg, ih]
    · intro r hr
      exact h r (by simp [hr])
    · simp [h a (by simp)]

/-- Fold invariant for the running average: starting from a table whose last
row holds the agent's partial sums over `k ≥ 1` earlier commits (and whose
other rows belong to other agents), committing `l` more scores yields the
partial sums over all `k + l.length` commits. -/
theorem commitScores_append_invariant (n : String) (hn : n ≠ "")
    (table : List AgentPerfRow) (hT : ∀ r ∈ table, r.agent_name ≠ n)
    (l : List QualityScore) :
    ∀ (k : ℕ), 0 < k → ∀ (so st sp sr sq : ℚ),
    commitScores (table ++ [⟨n, k, so / (k : ℚ), st / (k : ℚ), sp / (k : ℚ),
        sr / (k : ℚ), sq / (k : ℚ)⟩]) (some n) l
      = table ++ [⟨n, k + l.length,
          (so + (l.map QualityScore.overall_score).sum) / ((k + l.length : ℕ) : ℚ),
          (st + (l.map QualityScore.tone_score).sum) / ((k + l.length : ℕ) : ℚ),
          (sp + (l.map QualityScore.professionalism_score).sum) / ((k + l.length : ℕ) : ℚ),
          (sr + (l.map QualityScore.resolution_score).sum) / ((k + l.length : ℕ) : ℚ),
          (sq + (l.map QualityScore.response_time_score).sum) / ((k + l.length : ℕ) : ℚ)⟩] := by
  induction l with
  | nil =>
    intro k hk so st sp sr sq
    simp [commitScores]
  | cons q rest ih =>
    intro k hk so st sp sr sq
    have hkq : ((k : ℚ)) ≠ 0 := by
      exact_mod_cast Nat.pos_iff_ne_zero.mp hk
    have hstep : updateAgentPerformance
        (table ++ [⟨n, k, so / (k : ℚ), st / (k : ℚ), sp / (k : ℚ),
          sr / (k : ℚ), sq / (k : ℚ)⟩]) (some n) q
        = table ++ [⟨n, k + 1, (so + q.overall_score) / ((k + 1 : ℕ) : ℚ),
            (st + q.tone_score) / ((k + 1 : ℕ) : ℚ),
            (sp + q.professionalism_score) / ((k + 1 : ℕ) : ℚ),
            (sr + q.resolution_score) / ((k + 1 : ℕ) : ℚ),
            (sq + q.response_time_score) / ((k + 1 : ℕ) : ℚ)⟩] := by
      unfold updateAgentPerformance
      rw [pyOrUnknown_some n hn]
      have hany : ((table ++ [(⟨n, k, so / (k : ℚ), st / (k : ℚ), sp / (k : ℚ),
          sr / (k : ℚ), sq / (k : ℚ)⟩ : AgentPerfRow)]).any
            fun r => r.agent_name == n) = true := by
        simp
      rw [if_pos hany, List.map_append]
      congr 1
      · rw [List.map_congr_left, List.map_id]
        intro r hr
        simp [hT r hr]
      · simp only [List.map_cons, List.map_nil, beq_self_eq_true, if_true]
        congr 1
        simp only [AgentPerfRow.mk.injEq, true_and]
        refine ⟨?_, ?_, ?_, ?_, ?_⟩ <;>
          rw [div_mul_cancel₀ _ hkq]
    rw [show commitScores (table ++ [(⟨n, k, so / (k : ℚ), st / (k : ℚ), sp / (k : ℚ),
          sr / (k : ℚ), sq / (k : ℚ)⟩ : AgentPerfRow)]) (some n) (q :: rest)
        = commitScores (updateAgentPerformance
            (table ++ [⟨n, k, so / (k : ℚ), st / (k : ℚ), sp / (k : ℚ),
              sr / (k : ℚ), sq / (k : ℚ)⟩]) (some n) q) (some n) rest from rfl,
      hstep, ih (k + 1) (by omega) _ _ _ _ _]
    have hlen : k + 1 + rest.length = k + (rest.length + 1) := by omega
    simp only [List.length_cons, List.map_cons, List.sum_cons]
    congr 1
    congr 1
    simp only [AgentPerfRow.mk.injEq, true_and]
    refine ⟨by omega, ?_, ?_, ?_, ?_, ?_⟩ <;>
      rw [add_assoc, hlen]

/-- A first commit for an agent absent from the table appends a fresh row
with count 1 (written with the divisions by 1 explicit, to match the
invariant's shape). -/
theorem updateAgentPerformance_fresh (n : String) (hn : n ≠ "")
    (table : List AgentPerfRow) (hT : ∀ r ∈ table, r.agent_name ≠ n)
    (q : QualityScore) :
    updateAgentPerformance table (some n) q
      = table ++ [⟨n, 1, q.overall_score / ((1 : ℕ) : ℚ), q.tone_score / ((1 : ℕ) : ℚ),
          q.professionalism_score / ((1 : ℕ) : ℚ), q.resolution_score / ((1 : ℕ) : ℚ),
          q.response_time_score / ((1 : ℕ) : ℚ)⟩] := by
  unfold updateAgentPerformance
  rw [pyOrUnknown_some n hn]
  have hany : (table.any fun r => r.agent_name == n) = false := by
    rw [List.any_eq_false]
    intro r hr
    simp [hT r hr]
  rw [if_neg (by simp [hany])]
  simp [div_one]

/-- The agent's row after committing scores `l` from a table that does not
yet know the agent: count `l.length` and, per dimension, the arithmetic mean. -/
theorem commitScores_find (n : String) (hn : n ≠ "") (table : List AgentPerfRow)
    (hT : ∀ r ∈ table, r.agent_name ≠ n) (l : List QualityScore) (hl : l ≠ []) :
    (commitScores table (some n) l).find? (fun r => r.agent_name == n)
      = some ⟨n, l.length,
          (l.map QualityScore.overall_score).sum / ((l.length : ℕ) : ℚ),
          (l.map QualityScore.tone_score).sum / ((l.length : ℕ) : ℚ),
          (l.map QualityScore.professionalism_score).sum / ((l.length : ℕ) : ℚ),
          (l.map QualityScore.resolution_score).sum / ((l.length : ℕ) : ℚ),
          (l.map QualityScore.response_time_score).sum / ((l.length : ℕ) : ℚ)⟩ := by
  cases l with
  | nil => exact absurd rfl hl
  | cons q rest =>
    have h0 : commitScores table (some n) (q :: rest)
        = commitScores (updateAgentPerformance table (some n) q) (some n) rest := rfl
    rw [h0, updateAgentPerformance_fresh n hn table hT q,
      commitScores_append_invariant n hn table hT rest 1 (by omega) _ _ _ _ _,
      find?_append_of_none _ _ _ (by intro r hr; simp [hT r hr]),
      List.find?_cons_of_pos _ (by simp)]
    have hlen : 1 + rest.length = rest.length + 1 := by omega
    simp only [List.length_cons, List.map_cons, List.sum_cons]
    congr 1
    simp only [AgentPerfRow.mk.injEq, true_and]
    exact ⟨by omega, by rw [hlen], by rw [hlen], by rw [hlen], by rw [hlen], by rw [hlen]⟩

/-- C4: after committing scores `s1..sn` for an agent previously absent from
the table, the aggregate row holds `total_calls = n` and, per dimension, the
arithmetic mean of the committed scores (the running-average update
`(oldAvg * count + new) / (count + 1)` realizes it), and the resulting row
is the same for every commit order. -/
theorem agent_aggregate_running_mean (table : List AgentPerfRow) (a : String)
    (l : List QualityScore) (ha : a ≠ "") (hT : ∀ r ∈ table, r.agent_name ≠ a)
    (hl : l ≠ []) :
    (commitScores table (some a) l).find? (fun r => r.agent_name == a)
      = some ⟨a, l.length,
          (l.map QualityScore.overall_score).sum / ((l.length : ℕ) : ℚ),
          (l.map QualityScore.tone_score).sum / ((l.length : ℕ) : ℚ),
          (l.map QualityScore.professionalism_score).sum / ((l.length : ℕ) : ℚ),
          (l.map QualityScore.resolution_score).sum / ((l.length : ℕ) : ℚ),
          (l.map QualityScore.response_time_score).sum / ((l.length : ℕ) : ℚ)⟩ ∧
    ∀ l' : List QualityScore, l.Perm l' →
      (commitScores table (some a) l').find? (fun r => r.agent_name == a)
        = (commitScores table (some a) l).find? (fun r => r.agent_name == a) := by
  have h1 := commitScores_find a ha table hT l hl
  refine ⟨h1, fun l' hp => ?_⟩
  have hl' : l' ≠ [] := by
    intro h
    exact hl ((h ▸ hp).eq_nil)
  have h2 := commitScores_find a ha table hT l' hl'
  rw [h1, h2, ← hp.length_eq,
    ← (hp.map QualityScore.overall_score).sum_eq,
    ← (hp.map QualityScore.tone_score).sum_eq,
    ← (hp.map QualityScore.professionalism_score).sum_eq,
    ← (hp.map QualityScore.resolution_score).sum_eq,
    ← (hp.map QualityScore.response_time_score).sum_eq]

/-- A concrete scored call with all dimensions 8. -/
def sampleScoreA : QualityScore :=
  { overall_score := 8, tone_score := 8, professionalism_score := 8,
    resolution_score := 8, response_time_score := 8, feedback := "a" }

/-- A concrete scored call with all dimensions 6. -/
def sampleScoreB : QualityScore :=
  { overall_score := 6, tone_score := 6, professionalism_score := 6,
    resolution_score := 6, response_time_score := 6, feedback := "b" }

/-- Witness for `agent_aggregate_running_mean`: two commits of 8 and 6
produce count 2 and averages 7, in either commit order. -/
theorem agent_aggregate_running_mean_witness :
    (commitScores [] (some "Alice") [sampleScoreA, sampleScoreB]).find?
        (fun r => r.agent_name == "Alice") = some ⟨"Alice", 2, 7, 7, 7, 7, 7⟩ ∧
    (commitScores [] (some "Alice") [sampleScoreB, sampleScoreA]).find?
        (fun r => r.agent_name == "Alice") = some ⟨"Alice", 2, 7, 7, 7, 7, 7⟩ := by
  have h := agent_aggregate_running_mean [] "Alice" [sampleScoreA, sampleScoreB]
    (by decide) (by simp) (by simp)
  have hval : (commitScores [] (some "Alice") [sampleScoreA, sampleScoreB]).find?
      (fun r => r.agent_name == "Alice") = some ⟨"Alice", 2, 7, 7, 7, 7, 7⟩ := by
    rw [h.1]
    simp only [List.map_cons, List.map_nil, List.sum_cons, List.sum_nil, List.length_cons,
      List.length_nil, sampleScoreA, sampleScoreB, Option.some.injEq, AgentPerfRow.mk.injEq]
    norm_num
  refine ⟨hval, ?_⟩
  rw [h.2 [sampleScoreB, sampleScoreA] (List.Perm.swap sampleScoreB sampleScoreA []), hval]

/-! ## Storage write ordering (DataStorageAgent.process) -/

/-- `has_agent_name = (agent_name and agent_name.strip())` truthiness. -/
def hasAgentName : Option String → Bool
  | none => false
  | some s => !(s == "") && !(pyStrip s == "")

/-- `if not call_data.metadata.call_id: ... = self._generate_call_id()`;
the generated time-based identifier is the `genId` argument. -/
def resolveCallId (m : Option String) (genId : String) : String :=
  if pyTruthyStr m then m.getD "" else genId

/-- The persistent writes `DataStorageAgent` can perform, in the order the
source performs them. -/
inductive StoreEvent where
  | callFileWrite (callId : String)
  | indexAppend (callId : String)
  | flaggedFileWrite (callId : String)
  | scoreRowAppend (callId : String) (agentName : String)
  | agentPerfWrite (agentName : String)
deriving DecidableEq

/-- `_store_call_record`: the full per-call JSON record is written first,
then the lightweight entry is appended to `calls_database.json`. -/
def storeCallRecordTrace (callId : String) : List StoreEvent :=
  [.callFileWrite callId, .indexAppend callId]

/-- The ordered write trace of `DataStorageAgent.process`: the flagged path
for unsafe content, nothing without call data, otherwise the full record
(via `_store_call_record`) followed — only when an agent name and a score
exist — by the score-ledger append and the agent-aggregate write. -/
def dataStorageTrace (s : WFState) (genId : String) : List StoreEvent :=
  if !s.content_safety_passed then
    [.flaggedFileWrite ("FLAGGED_" ++ genId), .indexAppend ("FLAGGED_" ++ genId)]
  else
    match s.call_data with
    | none => []
    | some cd =>
      let cid := resolveCallId cd.metadata.call_id genId
      storeCallRecordTrace cid ++
        (if hasAgentName cd.metadata.agent_name && s.quality_score.isSome then
          [.scoreRowAppend cid (pyOrUnknown cd.metadata.agent_name),
           .agentPerfWrite (pyOrUnknown cd.metadata.agent_name)]
        else [])

/-- Is this event the write of the full per-call record? -/
def isRecordWrite : StoreEvent → Bool
  | .callFileWrite _ => true
  | _ => false

/-- C8: for every call committed on the normal path, the full CallRecord
write is the first storage event — the index append, score-ledger append and
agent-aggregate write all come after it, and no later event writes the
record again, so a failure during those later writes never loses the
already-written record. -/
theorem record_write_precedes_index_and_aggregates (s : WFState) (genId : String)
    (cd : CallData) (hp : s.content_safety_passed = true)
    (hcd : s.call_data = some cd) :
    ∃ rest, dataStorageTrace s genId
        = StoreEvent.callFileWrite (resolveCallId cd.metadata.call_id genId) :: rest ∧
      ∀ e ∈ rest, isRecordWrite e = false := by
  refine ⟨StoreEvent.indexAppend (resolveCallId cd.metadata.call_id genId) ::
      (if hasAgentName cd.metadata.agent_name && s.quality_score.isSome then
        [.scoreRowAppend (resolveCallId cd.metadata.call_id genId)
            (pyOrUnknown cd.metadata.agent_name),
         .agentPerfWrite (pyOrUnknown cd.metadata.agent_name)]
      else []), ?_, ?_⟩
  · simp [dataStorageTrace, hp, hcd, storeCallRecordTrace]
  · intro e he
    by_cases hq : (hasAgentName cd.metadata.agent_name && s.quality_score.isSome) = true
    · simp only [hq, if_true, List.mem_cons, List.mem_singleton] at he
      rcases he with rfl | rfl | rfl | h
      · rfl
      · rfl
      · rfl
      · simp at h
    · simp only [Bool.not_eq_true] at hq
      simp only [hq, Bool.false_eq_true, if_false, List.mem_cons, List.not_mem_nil,
        or_false] at he
      subst he
      rfl

/-- Witness for `record_write_precedes_index_and_aggregates` at a concrete
state with an agent name and a score (all four write kinds occur). -/
theorem record_write_precedes_witness :
    ∃ rest, dataStorageTrace
        { call_data := some { metadata := { agent_name := some "Alice" },
                              conversation := "Agent: hi" },
          quality_score := some sampleScoreA } "CALL_1"
        = StoreEvent.callFileWrite "CALL_1" :: rest ∧
      ∀ e ∈ rest, isRecordWrite e = false :=
  record_write_precedes_index_and_aggregates
    { call_data := some { metadata := { agent_name := some "Alice" },
                          conversation := "Agent: hi" },
      quality_score := some sampleScoreA } "CALL_1"
    { metadata := { agent_name := some "Alice" }, conversation := "Agent: hi" } rfl rfl

end CallCenter
